import Mathlib

/-!
Shallow embedding of the movie box-office ETL pipeline (`src/etl.py` and
`src/data_model_schemas.py`), together with proofs of the specified
properties of its normalization components.

Python strings are modelled as `String`, Python `dict`s with fixed keys as
structures with `Option` fields (a missing key is `none`), insertion-ordered
dicts as association lists, raising code as `Except String`, and pandas
DataFrames as `List`s of row structures.  `hash` is an arbitrary parameter
`pyHash : String → Int` since CPython randomizes the string hash per process.
-/

/-- Python `str.replace` on character lists: replace every non-overlapping
occurrence of `pat` by `rep`, scanning left to right.  (Only called with a
non-empty `pat`, as in the source: `" min"`, `","`, `"$"`.)  The `fuel`
argument only makes the recursion structural; callers pass the input
length, which always suffices since each step consumes at least one
character. -/
def replaceAux (pat rep : List Char) : Nat → List Char → List Char
  | 0, l => l
  | _ + 1, [] => []
  | fuel + 1, c :: cs =>
    if pat ≠ [] ∧ pat.isPrefixOf (c :: cs) then
      rep ++ replaceAux pat rep fuel (cs.drop (pat.length - 1))
    else
      c :: replaceAux pat rep fuel cs

/-- Python `s.replace(pat, rep)`. -/
def pyReplace (s pat rep : String) : String :=
  ⟨replaceAux pat.data rep.data s.data.length s.data⟩

/-- Helper of `pySplit`: split on every occurrence of the (non-empty)
separator, keeping empty pieces, with `acc` the reversed current piece and
`fuel` as in `replaceAux`. -/
def splitOnAux (sep : List Char) : Nat → List Char → List Char → List (List Char)
  | 0, _, acc => [acc.reverse]
  | _ + 1, [], acc => [acc.reverse]
  | fuel + 1, c :: cs, acc =>
    if sep ≠ [] ∧ sep.isPrefixOf (c :: cs) then
      acc.reverse :: splitOnAux sep fuel (cs.drop (sep.length - 1)) []
    else
      splitOnAux sep fuel cs (c :: acc)

/-- Python `s.split(sep)` for a non-empty separator: in particular
`"".split(", ") = [""]` and empty pieces between separators are kept. -/
def pySplit (s sep : String) : List String :=
  (splitOnAux sep.data s.data.length s.data []).map String.mk

/-- Decimal-digit parse of a whole string (model of the numeric parsing done
inside the external date parser). -/
def decNat? (s : String) : Option Nat :=
  if s.data ≠ [] ∧ s.data.all (·.isDigit) then
    some (s.data.foldl (fun a c => a * 10 + (c.toNat - 48)) 0)
  else
    none

/-- A pure calendar date (no time-of-day component). -/
structure CalDate where
  year : Nat
  month : Nat
  day : Nat
deriving DecidableEq, Repr

/-- Three-letter month abbreviations accepted by the `%b` directive. -/
def monthAbbrev? (s : String) : Option Nat :=
  if s = "Jan" then some 1 else if s = "Feb" then some 2
  else if s = "Mar" then some 3 else if s = "Apr" then some 4
  else if s = "May" then some 5 else if s = "Jun" then some 6
  else if s = "Jul" then some 7 else if s = "Aug" then some 8
  else if s = "Sep" then some 9 else if s = "Oct" then some 10
  else if s = "Nov" then some 11 else if s = "Dec" then some 12
  else none

/-- Model of `pd.to_datetime(s, format="%d %b %Y").date()`: strict
day/month-abbreviation/year parse, raising (`Except.error`) on mismatch. -/
def parseDMY (s : String) : Except String CalDate :=
  match pySplit s " " with
  | [d, m, y] =>
    match decNat? d, monthAbbrev? m, decNat? y with
    | some dd, some mm, some yy => .ok ⟨yy, mm, dd⟩
    | _, _, _ => .error ("unparsable date: " ++ s)
  | _ => .error ("unparsable date: " ++ s)

/-- ISO `YYYY-MM-DD` date-part parse, used by `parseFlexDate`. -/
def parseYMD (s : String) : Except String CalDate :=
  match pySplit s "-" with
  | [y, m, d] =>
    match decNat? y, decNat? m, decNat? d with
    | some yy, some mm, some dd => .ok ⟨yy, mm, dd⟩
    | _, _, _ => .error ("unparsable date: " ++ s)
  | _ => .error ("unparsable date: " ++ s)

/-- `HH:MM:SS` time-part parse (seconds of the day), used by `parseFlexDate`. -/
def parseHMS (s : String) : Except String Nat :=
  match pySplit s ":" with
  | [h, m, sec] =>
    match decNat? h, decNat? m, decNat? sec with
    | some hh, some mm, some ss => .ok (hh * 3600 + mm * 60 + ss)
    | _, _, _ => .error ("unparsable time: " ++ s)
  | _ => .error ("unparsable time: " ++ s)

/-- Model of the flexible `pd.to_datetime(s)` used on the revenue `date`
column (restricted to ISO timestamps): produces a calendar date plus a
time-of-day in seconds, raising on anything unparsable.  The source then
applies `.dt.date`, i.e. keeps only the first component. -/
def parseFlexDate (s : String) : Except String (CalDate × Nat) :=
  match pySplit s " " with
  | [d] => (parseYMD d).map (fun cd => (cd, 0))
  | [d, t] => do
    let cd ← parseYMD d
    let secs ← parseHMS t
    .ok (cd, secs)
  | _ => .error ("unparsable date: " ++ s)

/-- One row of the revenue CSV (spec section 6). -/
structure RevenueRecord where
  id : String
  title : String
  date : String
  revenue : Int
  theaters : Int
  distributor : String
deriving DecidableEq, Repr

/-- One row of the distributor dimension. -/
structure DistributorRow where
  distributor_name : String
  distributor_id : Nat
deriving DecidableEq, Repr

/-- Keep-first deduplication relative to an already-seen list: the semantics
of `DataFrame.drop_duplicates()` (and of first-insertion into a dict). -/
def dedupKeepFirst (seen : List String) : List String → List String
  | [] => []
  | x :: xs =>
    if x ∈ seen then dedupKeepFirst seen xs
    else x :: dedupKeepFirst (x :: seen) xs

/-- Pair each element with a 1-based sequential id starting above `k`:
the semantics of `reset_index(drop=True)` followed by `index + 1`. -/
def stampFrom (k : Nat) : List String → List (String × Nat)
  | [] => []
  | g :: gs => (g, k + 1) :: stampFrom (k + 1) gs

/-- `ETLPipeline.process_distributors_data`: deduplicate the `distributor`
column keeping first occurrences, assign `distributor_id = index + 1`, and
rename the column to `distributor_name`. -/
def process_distributors_data (df : List RevenueRecord) : List DistributorRow :=
  (stampFrom 0 (dedupKeepFirst [] (df.map (·.distributor)))).map
    (fun p => { distributor_name := p.1, distributor_id := p.2 })

/-- `hash(t) & 0xffffffff` from `process_revenue_data`, with the process's
string hash passed in as `pyHash`. -/
def movieIdOf (pyHash : String → Int) (t : String) : Int :=
  Int.land (pyHash t) 0xffffffff

/-- One row of the fact table, with exactly the projected columns. -/
structure FactRow where
  id : String
  movie_id : Int
  revenue : Int
  theaters : Int
  distributor_id : Nat
  date : CalDate
deriving DecidableEq, Repr

/-- The pandas inner merge `df.merge(distributor_df, left_on="distributor",
right_on="distributor_name")`: each revenue row paired with every
distributor row whose name matches, in left-then-right order. -/
def mergeDistributors (df : List RevenueRecord) (dist : List DistributorRow) :
    List (RevenueRecord × DistributorRow) :=
  df.flatMap (fun r => (dist.filter (fun d => d.distributor_name == r.distributor)).map
    (fun d => (r, d)))

/-- Date-parse and project each merged row into the fact-table shape; the
first unparsable date raises, as `pd.to_datetime` does on a whole column. -/
def buildFactRows (pyHash : String → Int) :
    List (RevenueRecord × DistributorRow) → Except String (List FactRow)
  | [] => .ok []
  | p :: ps =>
    match parseFlexDate p.1.date with
    | .error e => .error e
    | .ok dt =>
      match buildFactRows pyHash ps with
      | .error e => .error e
      | .ok rest =>
        .ok ({ id := p.1.id, movie_id := movieIdOf pyHash p.1.title,
               revenue := p.1.revenue, theaters := p.1.theaters,
               distributor_id := p.2.distributor_id, date := dt.1 } :: rest)

/-- `ETLPipeline.process_revenue_data`: merge with the distributor dimension,
derive `movie_id` per title, normalize dates to calendar dates, project the
fact columns, and return the title-to-movie_id pairs for the enricher. -/
def process_revenue_data (pyHash : String → Int) (df : List RevenueRecord)
    (dist : List DistributorRow) : Except String (List FactRow × List (String × Int)) :=
  match buildFactRows pyHash (mergeDistributors df dist) with
  | .error e => .error e
  | .ok rows =>
    .ok (rows, (mergeDistributors df dist).map
      (fun p => (p.1.title, movieIdOf pyHash p.1.title)))

/-- HTTP response of the metadata provider at the interface boundary: a
transport status code plus the parsed JSON object as a key-value list. -/
structure OmdbPayload where
  status_code : Nat
  data : List (String × String)
deriving DecidableEq, Repr

/-- Python `d.get(k)` on a key-value list. -/
def lookupKey (d : List (String × String)) (k : String) : Option String :=
  (d.find? (fun p => p.1 == k)).map (·.2)

/-- `ETLPipeline.get_movie_data`: return the payload when the transport
status is 200 and the record's `Response` flag is `"True"`, else `None`. -/
def get_movie_data (provider : String → OmdbPayload) (title : String) :
    Option (List (String × String)) :=
  let resp := provider title
  if resp.status_code = 200 then
    if lookupKey resp.data "Response" = some "True" then some resp.data else none
  else none

/-- A provider record tagged with the movie id derived for its title,
modelling `{**data, "movie_id": movie_id}`. -/
structure EnrichedRecord where
  data : List (String × String)
  movie_id : Int
deriving DecidableEq, Repr

/-- `ETLPipeline.fetch_ombdapi_data`: keep, in input order, the payload of
every title the provider resolves, tagged with that title's movie id; all
other titles are skipped.  (The kept payload always contains the `Response`
key, so Python's dict-truthiness test coincides with the `None` test.) -/
def fetch_ombdapi_data (provider : String → OmdbPayload) (movies : List (String × Int)) :
    List EnrichedRecord :=
  movies.filterMap (fun p => (get_movie_data provider p.1).map (fun d => ⟨d, p.2⟩))

/-- One enriched metadata record as consumed by `process_movies_data`: the
OMDB attribute fields (a missing key is `none`) plus the `movie_id` tag. -/
structure MovieData where
  movie_id : Int := 0
  Title : Option String := none
  Year : Option String := none
  Released : Option String := none
  Runtime : Option String := none
  Genre : Option String := none
  Director : Option String := none
  Writer : Option String := none
  Actors : Option String := none
  Plot : Option String := none
  Language : Option String := none
  Country : Option String := none
  Awards : Option String := none
  Ratings : Option (List (String × String)) := none
  Metascore : Option String := none
  imdbRating : Option String := none
  imdbVotes : Option String := none
  BoxOffice : Option String := none
  Production : Option String := none
  Website : Option String := none
  Poster : Option String := none
deriving DecidableEq, Repr

/-- One row of the movie dimension (string-typed attributes; the declared
SQL types are applied by the persister). -/
structure MovieRow where
  movie_id : Int
  title : Option String
  year : Option String
  released : Option CalDate
  runtime_minutes : Option String
  director : Option String
  writer : Option String
  actors : Option String
  plot : Option String
  language : Option String
  country : Option String
  awards : Option String
  ratings : Option String
  metascore : Option String
  imdb_rating : Option String
  imdb_votes : Option String
  box_office_total : Option String
  production : Option String
  website : Option String
  poster : Option String
deriving DecidableEq, Repr

/-- One row of the genre dimension. -/
structure GenreRow where
  genre_id : Nat
  genre_name : String
deriving DecidableEq, Repr

/-- One row of the movie-genre bridge table. -/
structure BridgeRow where
  movie_id : Int
  genre_id : Nat
deriving DecidableEq, Repr

/-- `json.dumps` of the provider's list-of-rating-source structure, as a
single textual blob. -/
def ratingsJson (rs : List (String × String)) : String :=
  "[" ++ String.intercalate ", "
    (rs.map (fun r =>
      "\x7b\"Source\": \"" ++ r.1 ++ "\", \"Value\": \"" ++ r.2 ++ "\"\x7d")) ++ "]"

/-- `data.get("Genre", "").split(", ")` — note that a missing or empty
`Genre` yields the singleton list `[""]`. -/
def genresOf (data : MovieData) : List String :=
  pySplit (data.Genre.getD "") ", "

/-- Python `genre in dim_genres` / `dim_genres[genre]` on the
insertion-ordered genre dict. -/
def lookupGenre (dim : List (String × Nat)) (g : String) : Option Nat :=
  (dim.find? (fun p => p.1 == g)).map (·.2)

/-- The body of the inner genre loop of `process_movies_data`: insert an
unseen non-empty genre with id `len(dim_genres) + 1`, then append a bridge
row via `dim_genres[genre]` — which raises `KeyError` when `genre` is the
empty string. -/
def stepGenre (mid : Int) (acc : List (String × Nat) × List BridgeRow) (g : String) :
    Except String (List (String × Nat) × List BridgeRow) :=
  let dim := if g ≠ "" ∧ lookupGenre acc.1 g = none
             then acc.1 ++ [(g, acc.1.length + 1)] else acc.1
  match lookupGenre dim g with
  | some gid => .ok (dim, acc.2 ++ [⟨mid, gid⟩])
  | none => .error "KeyError: ''"

/-- Assembly of a movie-dimension row from one enriched record, following
the dict literal of `process_movies_data` in evaluation order.  `Released`
parse errors and the `.replace` calls on a missing `Runtime` or `imdbVotes`
(`NoneType` has no `replace`) raise, exactly as in the source. -/
def buildMovieRow (data : MovieData) : Except String MovieRow :=
  match (if data.Released = some "N/A" then .ok none
         else
           match data.Released with
           | none => .ok none
           | some s => (parseDMY s).map some : Except String (Option CalDate)) with
  | .error e => .error e
  | .ok released =>
  match (if data.Runtime = some "N/A" then .ok none
         else
           match data.Runtime with
           | none => .error "AttributeError: NoneType has no attribute replace"
           | some s => .ok (some (pyReplace s " min" "")) : Except String (Option String)) with
  | .error e => .error e
  | .ok runtime =>
  match (match data.imdbVotes with
         | none => .error "AttributeError: NoneType has no attribute replace"
         | some s => .ok (pyReplace s "," "") : Except String String) with
  | .error e => .error e
  | .ok votes =>
  .ok { movie_id := data.movie_id
        title := data.Title
        year := data.Year
        released := released
        runtime_minutes := runtime
        director := data.Director
        writer := data.Writer
        actors := data.Actors
        plot := data.Plot
        language := data.Language
        country := data.Country
        awards := data.Awards
        ratings := some (ratingsJson (data.Ratings.getD []))
        metascore := data.Metascore
        imdb_rating := if data.imdbRating = some "N/A" then none else data.imdbRating
        imdb_votes := some votes
        box_office_total :=
          if data.BoxOffice = some "N/A" then none
          else some (pyReplace (pyReplace (data.BoxOffice.getD "") "$" "") "," "")
        production := data.Production
        website := data.Website
        poster := data.Poster }

/-- The blanket `replace(['N/A', ''], None)` post-pass on one cell. -/
def cleanCell (v : Option String) : Option String :=
  if v = some "N/A" ∨ v = some "" then none else v

/-- A cell value is free of the two sentinel literals the blanket post-pass
coerces to null. -/
def noSentinel (v : Option String) : Prop :=
  v ≠ some "N/A" ∧ v ≠ some ""

/-- The blanket post-pass applied to every (string-typed) column of an
assembled movie row. -/
def cleanMovieRow (r : MovieRow) : MovieRow :=
  { r with
    title := cleanCell r.title
    year := cleanCell r.year
    runtime_minutes := cleanCell r.runtime_minutes
    director := cleanCell r.director
    writer := cleanCell r.writer
    actors := cleanCell r.actors
    plot := cleanCell r.plot
    language := cleanCell r.language
    country := cleanCell r.country
    awards := cleanCell r.awards
    ratings := cleanCell r.ratings
    metascore := cleanCell r.metascore
    imdb_rating := cleanCell r.imdb_rating
    imdb_votes := cleanCell r.imdb_votes
    box_office_total := cleanCell r.box_office_total
    production := cleanCell r.production
    website := cleanCell r.website
    poster := cleanCell r.poster }

/-- Accumulated state of the `process_movies_data` loop. -/
structure NormState where
  dim_genres : List (String × Nat)
  dim_movies : List MovieRow
  bridge : List BridgeRow
deriving DecidableEq, Repr

/-- The inner genre loop of `process_movies_data` over one record's split
genre list, threading the genre dict and bridge list and propagating the
first raise. -/
def foldGenres (mid : Int) (acc : List (String × Nat) × List BridgeRow) :
    List String → Except String (List (String × Nat) × List BridgeRow)
  | [] => .ok acc
  | g :: gs =>
    match stepGenre mid acc g with
    | .error e => .error e
    | .ok acc2 => foldGenres mid acc2 gs

/-- One iteration of the outer loop of `process_movies_data`: process the
record's genres (growing the genre dict and the bridge list), then append
the assembled movie-dimension row. -/
def processOneMovie (st : NormState) (data : MovieData) : Except String NormState :=
  match foldGenres data.movie_id (st.dim_genres, st.bridge) (genresOf data) with
  | .error e => .error e
  | .ok gb =>
    match buildMovieRow data with
    | .error e => .error e
    | .ok row => .ok ⟨gb.1, st.dim_movies ++ [row], gb.2⟩

/-- The outer loop of `process_movies_data` over the record list. -/
def runMovies (st : NormState) : List MovieData → Except String NormState
  | [] => .ok st
  | m :: ms =>
    match processOneMovie st m with
    | .error e => .error e
    | .ok st2 => runMovies st2 ms

/-- `ETLPipeline.process_movies_data`: fold the loop over all records, then
materialize the three outputs — the movie dimension after the blanket
null-coercion post-pass, the genre dimension in dict insertion order, and
the bridge rows. -/
def process_movies_data (movies_data : List MovieData) :
    Except String (List MovieRow × List GenreRow × List BridgeRow) :=
  match runMovies ⟨[], [], []⟩ movies_data with
  | .error e => .error e
  | .ok st =>
    .ok (st.dim_movies.map cleanMovieRow,
         st.dim_genres.map (fun p => ⟨p.2, p.1⟩),
         st.bridge)

/-- Semantic column types of `data_model_schemas.TableSchemas`. -/
inductive SqlType where
  | integer
  | string
  | date
  | float
  | text
deriving DecidableEq, Repr

/-- Schema of `dim_movies` (from `data_model_schemas.py`). -/
def dim_movies_schema : List (String × SqlType) :=
  [("movie_id", .integer), ("title", .string), ("year", .integer),
   ("released", .date), ("runtime_minutes", .integer), ("director", .string),
   ("writer", .string), ("actors", .string), ("plot", .text),
   ("language", .string), ("country", .string), ("awards", .string),
   ("ratings", .string), ("metascore", .integer), ("imdb_rating", .float),
   ("imdb_votes", .integer), ("box_office_total", .string),
   ("production", .string), ("website", .string), ("poster", .string)]

/-- Schema of `dim_genres`. -/
def dim_genres_schema : List (String × SqlType) :=
  [("genre_id", .integer), ("genre_name", .string)]

/-- Schema of `bridge_movie_genre`. -/
def bridge_movie_genre_schema : List (String × SqlType) :=
  [("movie_id", .integer), ("genre_id", .integer)]

/-- Schema of `dim_distributor`. -/
def dim_distributor_schema : List (String × SqlType) :=
  [("distributor_id", .integer), ("distributor_name", .string)]

/-- Schema of `fact_revenues`. -/
def fact_revenues_schema : List (String × SqlType) :=
  [("id", .string), ("movie_id", .integer), ("revenue", .integer),
   ("theaters", .float), ("distributor_id", .integer), ("date", .date)]

/-- `TableSchemas.get_schema`: schema lookup over the closed set of five
table names, raising `ValueError` on any other name. -/
def get_schema (table_name : String) : Except String (List (String × SqlType)) :=
  if table_name = "dim_movies" then .ok dim_movies_schema
  else if table_name = "dim_genres" then .ok dim_genres_schema
  else if table_name = "bridge_movie_genre" then .ok bridge_movie_genre_schema
  else if table_name = "dim_distributor" then .ok dim_distributor_schema
  else if table_name = "fact_revenues" then .ok fact_revenues_schema
  else .error ("Missing schema for table: " ++ table_name)

/-- The relational store at the interface boundary: current rows per table
name (`none` = table absent). -/
def Store (α : Type) : Type := String → Option (List α)

/-- `ETLPipeline.save_to_sqlite`: look up the table's schema (raising on an
unknown name) and write the rows with `if_exists="replace"` — the prior
contents of that table, if any, are discarded. -/
def save_to_sqlite {α : Type} (store : Store α) (df : List α) (table_name : String) :
    Except String (Store α) :=
  match get_schema table_name with
  | .error e => .error e
  | .ok _ => .ok (fun t => if t = table_name then some df else store t)

/-! Lemmas about keep-first deduplication. -/

theorem mem_dedupKeepFirst (seen l : List String) (x : String) :
    x ∈ dedupKeepFirst seen l ↔ x ∈ l ∧ x ∉ seen := by
  induction l generalizing seen with
  | nil => simp [dedupKeepFirst]
  | cons a l ih =>
    by_cases h : a ∈ seen
    · rw [dedupKeepFirst, if_pos h, ih]
      simp only [List.mem_cons]
      constructor
      · rintro ⟨hx, hs⟩
        exact ⟨Or.inr hx, hs⟩
      · rintro ⟨hx | hx, hs⟩
        · cases hx
          exact absurd h hs
        · exact ⟨hx, hs⟩
    · rw [dedupKeepFirst, if_neg h]
      simp only [List.mem_cons, ih]
      constructor
      · rintro (rfl | ⟨hx, hs⟩)
        · exact ⟨Or.inl rfl, h⟩
        · exact ⟨Or.inr hx, fun hc => hs (Or.inr hc)⟩
      · rintro ⟨rfl | hx, hs⟩
        · exact Or.inl rfl
        · by_cases hxa : x = a
          · exact Or.inl hxa
          · exact Or.inr ⟨hx, fun hc => hc.elim hxa hs⟩

theorem pairwise_indexOf_dedupKeepFirst (seen l : List String) :
    (dedupKeepFirst seen l).Pairwise (fun a b => l.indexOf a < l.indexOf b) := by
  induction l generalizing seen with
  | nil => simp [dedupKeepFirst]
  | cons x xs ih =>
    by_cases h : x ∈ seen
    · rw [dedupKeepFirst, if_pos h]
      refine (ih seen).imp_of_mem ?_
      intro a b ha hb hab
      have hax : x ≠ a := fun e => ((mem_dedupKeepFirst seen xs a).mp ha).2 (e ▸ h)
      have hbx : x ≠ b := fun e => ((mem_dedupKeepFirst seen xs b).mp hb).2 (e ▸ h)
      rw [List.indexOf_cons_ne _ hax, List.indexOf_cons_ne _ hbx]
      omega
    · rw [dedupKeepFirst, if_neg h]
      refine List.Pairwise.cons ?_ ?_
      · intro b hb
        have hbx : x ≠ b := fun e =>
          ((mem_dedupKeepFirst (x :: seen) xs b).mp hb).2 (List.mem_cons.mpr (Or.inl e.symm))
        rw [List.indexOf_cons_self, List.indexOf_cons_ne _ hbx]
        exact Nat.succ_pos _
      · refine (ih (x :: seen)).imp_of_mem ?_
        intro a b ha hb hab
        have hax : x ≠ a := fun e =>
          ((mem_dedupKeepFirst (x :: seen) xs a).mp ha).2 (List.mem_cons.mpr (Or.inl e.symm))
        have hbx : x ≠ b := fun e =>
          ((mem_dedupKeepFirst (x :: seen) xs b).mp hb).2 (List.mem_cons.mpr (Or.inl e.symm))
        rw [List.indexOf_cons_ne _ hax, List.indexOf_cons_ne _ hbx]
        omega

theorem nodup_dedupKeepFirst (seen l : List String) : (dedupKeepFirst seen l).Nodup :=
  (pairwise_indexOf_dedupKeepFirst seen l).imp (fun hab => by
    intro e
    subst e
    omega)

theorem dedupKeepFirst_congr (l : List String) :
    ∀ s t : List String, (∀ x, x ∈ s ↔ x ∈ t) →
      dedupKeepFirst s l = dedupKeepFirst t l := by
  induction l with
  | nil => intro s t _; rfl
  | cons a l ih =>
    intro s t hst
    by_cases h : a ∈ s
    · rw [dedupKeepFirst, if_pos h, dedupKeepFirst, if_pos ((hst a).mp h), ih s t hst]
    · rw [dedupKeepFirst, if_neg h, dedupKeepFirst, if_neg (fun hc => h ((hst a).mpr hc)),
        ih (a :: s) (a :: t) (fun x => by simp [List.mem_cons, hst x])]

theorem dedupKeepFirst_append (xs : List String) :
    ∀ (ys seen : List String),
      dedupKeepFirst seen (xs ++ ys) =
        dedupKeepFirst seen xs ++ dedupKeepFirst (seen ++ dedupKeepFirst seen xs) ys := by
  induction xs with
  | nil =>
    intro ys seen
    simp [dedupKeepFirst]
  | cons x xs ih =>
    intro ys seen
    by_cases h : x ∈ seen
    · rw [List.cons_append, dedupKeepFirst, if_pos h, dedupKeepFirst, if_pos h, ih]
    · rw [List.cons_append, dedupKeepFirst, if_neg h, dedupKeepFirst, if_neg h,
        ih ys (x :: seen), List.cons_append]
      congr 1
      congr 1
      refine dedupKeepFirst_congr ys _ _ (fun z => ?_)
      simp only [List.mem_append, List.mem_cons]
      tauto

/-! Lemmas about sequential-id stamping and genre-dict lookup. -/

theorem stampFrom_map_fst (l : List String) : ∀ k, (stampFrom k l).map Prod.fst = l := by
  induction l with
  | nil => intro k; rfl
  | cons g gs ih => intro k; simp [stampFrom, ih]

theorem stampFrom_map_snd (l : List String) :
    ∀ k, (stampFrom k l).map Prod.snd = List.range' (k + 1) l.length := by
  induction l with
  | nil => intro k; rfl
  | cons g gs ih =>
    intro k
    simp only [stampFrom, List.map_cons, List.length_cons, List.range'_succ, ih (k + 1)]

theorem stampFrom_length (l : List String) : ∀ k, (stampFrom k l).length = l.length := by
  induction l with
  | nil => intro k; rfl
  | cons g gs ih => intro k; simp [stampFrom, ih]

theorem stampFrom_append (a : List String) :
    ∀ (b : List String) (k : Nat),
      stampFrom k (a ++ b) = stampFrom k a ++ stampFrom (k + a.length) b := by
  induction a with
  | nil => intro b k; simp [stampFrom]
  | cons x a ih =>
    intro b k
    rw [List.cons_append, stampFrom, stampFrom, ih b (k + 1), List.cons_append]
    have : k + 1 + a.length = k + (x :: a).length := by simp; omega
    rw [this]

theorem lookupGenre_cons (a : String) (i : Nat) (rest : List (String × Nat)) (g : String) :
    lookupGenre ((a, i) :: rest) g = if a = g then some i else lookupGenre rest g := by
  by_cases h : a = g
  · simp [lookupGenre, List.find?, h]
  · have hb : (a == g) = false := beq_eq_false_iff_ne.mpr h
    simp [lookupGenre, List.find?, hb, h]

theorem lookupGenre_stampFrom_none (ks : List String) (g : String) :
    ∀ k, lookupGenre (stampFrom k ks) g = none ↔ g ∉ ks := by
  induction ks with
  | nil => intro k; simp [lookupGenre, stampFrom]
  | cons a ks ih =>
    intro k
    rw [stampFrom, lookupGenre_cons]
    by_cases h : a = g
    · simp [h]
    · simp only [if_neg h, ih (k + 1), List.mem_cons]
      constructor
      · intro hg hc
        rcases hc with hc | hc
        · exact h hc.symm
        · exact hg hc
      · intro hg hc
        exact hg (Or.inr hc)

theorem lookupGenre_stampFrom_snoc (ks : List String) (g : String) (hg : g ∉ ks) :
    ∀ k, lookupGenre (stampFrom k (ks ++ [g])) g = some (k + ks.length + 1) := by
  induction ks with
  | nil => intro k; simp [stampFrom, lookupGenre_cons]
  | cons a ks ih =>
    intro k
    have hag : a ≠ g := fun e => hg (e ▸ List.mem_cons_self a ks)
    have hg2 : g ∉ ks := fun hc => hg (List.mem_cons_of_mem a hc)
    rw [List.cons_append, stampFrom, lookupGenre_cons, if_neg hag, ih hg2 (k + 1)]
    congr 1
    simp only [List.length_cons]
    omega

theorem lookupGenre_mem {dim : List (String × Nat)} {g : String} {j : Nat}
    (h : lookupGenre dim g = some j) : (g, j) ∈ dim := by
  unfold lookupGenre at h
  rcases Option.map_eq_some'.mp h with ⟨p, hfind, hpj⟩
  have hmem := List.mem_of_find?_eq_some hfind
  have hkey := List.find?_some hfind
  cases p with
  | mk a b =>
    simp only [beq_iff_eq] at hkey
    simp only at hpj
    subst hkey
    subst hpj
    exact hmem

/-! Properties of the distributor dimension. -/

theorem process_distributors_names (df : List RevenueRecord) :
    (process_distributors_data df).map (·.distributor_name) =
      dedupKeepFirst [] (df.map (·.distributor)) := by
  unfold process_distributors_data
  rw [List.map_map]
  have h : ((fun d : DistributorRow => d.distributor_name) ∘
      fun p : String × Nat => ({ distributor_name := p.1, distributor_id := p.2 } : DistributorRow))
      = Prod.fst := rfl
  rw [h, stampFrom_map_fst]

theorem process_distributors_ids (df : List RevenueRecord) :
    (process_distributors_data df).map (·.distributor_id) =
      List.range' 1 (process_distributors_data df).length := by
  unfold process_distributors_data
  rw [List.map_map, List.length_map]
  have h : ((fun d : DistributorRow => d.distributor_id) ∘
      fun p : String × Nat => ({ distributor_name := p.1, distributor_id := p.2 } : DistributorRow))
      = Prod.snd := rfl
  rw [h, stampFrom_map_snd, stampFrom_length]

/-- C1: for every input sequence of revenue records, the distributor
dimension of `process_distributors_data` lists each distinct distributor
name exactly once (no duplicates, and exactly the names occurring in the
input), with `distributor_id` the dense sequence `1, 2, 3, ...` down the
dimension, rows ordered by each name's first occurrence in the input. -/
theorem distributor_dimension_dense_first_seen (df : List RevenueRecord) :
    ((process_distributors_data df).map (·.distributor_name)).Nodup ∧
    (∀ s, s ∈ (process_distributors_data df).map (·.distributor_name) ↔
      s ∈ df.map (·.distributor)) ∧
    (process_distributors_data df).map (·.distributor_id) =
      List.range' 1 (process_distributors_data df).length ∧
    ((process_distributors_data df).map (·.distributor_name)).Pairwise
      (fun a b => (df.map (·.distributor)).indexOf a < (df.map (·.distributor)).indexOf b) := by
  rw [process_distributors_names]
  refine ⟨nodup_dedupKeepFirst _ _, fun s => ?_, process_distributors_ids df,
    pairwise_indexOf_dedupKeepFirst _ _⟩
  rw [mem_dedupKeepFirst]
  simp

/-! The movie-id hash mask. -/

theorem land_mask_bounds (i : Int) :
    0 ≤ Int.land i 0xffffffff ∧ Int.land i 0xffffffff < 2 ^ 32 := by
  cases i with
  | ofNat m =>
    have heq : Int.land (Int.ofNat m) 0xffffffff = Int.ofNat (m &&& 4294967295) := rfl
    have hn : m &&& 4294967295 < 2 ^ 32 := Nat.and_lt_two_pow m (by norm_num)
    rw [heq, Int.ofNat_eq_natCast]
    omega
  | negSucc m =>
    have heq : Int.land (Int.negSucc m) 0xffffffff = Int.ofNat (Nat.ldiff 4294967295 m) := rfl
    have hn : Nat.ldiff 4294967295 m < 2 ^ 32 := by
      apply Nat.lt_pow_two_of_testBit
      intro i hi
      rw [Nat.testBit_ldiff]
      have hm : Nat.testBit 4294967295 i = false :=
        Nat.testBit_lt_two_pow
          (lt_of_lt_of_le (by norm_num) (Nat.pow_le_pow_right (by norm_num) hi))
      simp [hm]
    rw [heq, Int.ofNat_eq_natCast]
    omega

/-- C3: `movie_id` derivation in `process_revenue_data` is a pure function
of the title string — the same title always yields the same id within a run
(a fixed process hash `pyHash`) — and every derived id lies in the unsigned
32-bit range `[0, 2^32)`. -/
theorem movie_id_deterministic_and_32bit (pyHash : String → Int) (t s : String) :
    (t = s → movieIdOf pyHash t = movieIdOf pyHash s) ∧
    0 ≤ movieIdOf pyHash t ∧ movieIdOf pyHash t < 2 ^ 32 := by
  refine ⟨fun h => h ▸ rfl, ?_, ?_⟩
  · exact (land_mask_bounds (pyHash t)).1
  · exact (land_mask_bounds (pyHash t)).2

/-- Witness for C3 at a concrete hash function and title. -/
theorem movie_id_deterministic_and_32bit_witness :
    movieIdOf (fun s => (s.length : Int) - 7) "A" = movieIdOf (fun s => (s.length : Int) - 7) "A" ∧
    0 ≤ movieIdOf (fun s => (s.length : Int) - 7) "A" ∧
    movieIdOf (fun s => (s.length : Int) - 7) "A" < 2 ^ 32 :=
  ⟨(movie_id_deterministic_and_32bit (fun s => (s.length : Int) - 7) "A" "A").1 rfl,
   (movie_id_deterministic_and_32bit (fun s => (s.length : Int) - 7) "A" "A").2⟩

/-! The metadata enricher. -/

/-- C5: `fetch_ombdapi_data` keeps exactly those titles for which the
provider's transport status is 200 and the payload's `Response` flag is
`"True"`; each kept payload is tagged with the movie id supplied for its
title, and every other title is skipped while the computation still returns
normally (it is a total function into a plain list). -/
theorem enricher_keeps_iff_success (provider : String → OmdbPayload)
    (movies : List (String × Int)) :
    fetch_ombdapi_data provider movies =
      (movies.filter (fun p => decide ((provider p.1).status_code = 200) &&
        decide (lookupKey (provider p.1).data "Response" = some "True"))).map
        (fun p => ⟨(provider p.1).data, p.2⟩) := by
  induction movies with
  | nil => rfl
  | cons p ps ih =>
    by_cases h1 : (provider p.1).status_code = 200
    · by_cases h2 : lookupKey (provider p.1).data "Response" = some "True"
      · have hg : get_movie_data provider p.1 = some (provider p.1).data := by
          simp [get_movie_data, h1, h2]
        simp only [fetch_ombdapi_data] at ih ⊢
        simp [List.filterMap_cons, List.filter_cons, hg, h1, h2, ih]
      · have hg : get_movie_data provider p.1 = none := by
          simp [get_movie_data, h1, h2]
        simp only [fetch_ombdapi_data] at ih ⊢
        simp [List.filterMap_cons, List.filter_cons, hg, h1, h2, ih]
    · have hg : get_movie_data provider p.1 = none := by
        simp [get_movie_data, h1]
      simp only [fetch_ombdapi_data] at ih ⊢
      simp [List.filterMap_cons, List.filter_cons, hg, h1, ih]

/-! The persister. -/

/-- C9: persistence is a destructive replace, not an append — writing rows
`r1` and then rows `r2` to the same table in the same run leaves the store
holding exactly `r2` for that table. -/
theorem save_to_sqlite_replaces {α : Type} (store : Store α) (name : String)
    (r1 r2 : List α) (s1 s2 : Store α)
    (h1 : save_to_sqlite store r1 name = .ok s1)
    (h2 : save_to_sqlite s1 r2 name = .ok s2) :
    s2 name = some r2 := by
  unfold save_to_sqlite at h1 h2
  cases hg : get_schema name with
  | error e =>
    rw [hg] at h1
    cases h1
  | ok sch =>
    rw [hg] at h2
    injection h2 with h
    rw [← h]
    simp

/-- Witness for C9: two writes to `dim_genres` leave exactly the second
row set. -/
theorem save_to_sqlite_replaces_witness :
    ∃ s1 s2 : Store Nat,
      save_to_sqlite (fun _ => none) [1] "dim_genres" = .ok s1 ∧
      save_to_sqlite s1 [2, 3] "dim_genres" = .ok s2 ∧
      s2 "dim_genres" = some [2, 3] :=
  ⟨fun t => if t = "dim_genres" then some [1] else (fun _ => none : Store Nat) t,
   fun t => if t = "dim_genres" then some [2, 3]
            else (fun u => if u = "dim_genres" then some [1] else (fun _ => none : Store Nat) u) t,
   rfl, rfl,
   save_to_sqlite_replaces (fun _ => none) "dim_genres" [1] [2, 3]
     (fun t => if t = "dim_genres" then some [1] else (fun _ => none : Store Nat) t)
     (fun t => if t = "dim_genres" then some [2, 3]
               else (fun u => if u = "dim_genres" then some [1] else (fun _ => none : Store Nat) u) t)
     rfl rfl⟩

/-! The genre dict built by the inner loop of `process_movies_data`. -/

theorem stampFrom_singleton (g : String) (k : Nat) : stampFrom k [g] = [(g, k + 1)] := rfl

theorem stampFrom_prefix_mem {p : String × Nat} {a : List String} (b : List String)
    (h : p ∈ stampFrom 0 a) : p ∈ stampFrom 0 (a ++ b) := by
  rw [stampFrom_append]
  exact List.mem_append_left _ h

theorem foldGenres_ok (gs : List String) :
    ∀ (ks : List String) (br : List BridgeRow) (mid : Int)
      (out : List (String × Nat) × List BridgeRow),
      "" ∉ ks →
      foldGenres mid (stampFrom 0 ks, br) gs = .ok out →
      (∀ g ∈ gs, g ≠ "") ∧
      out.1 = stampFrom 0 (ks ++ dedupKeepFirst ks gs) ∧
      (∀ row ∈ out.2, row ∈ br ∨
        (row.movie_id = mid ∧ ∃ p ∈ out.1, p.2 = row.genre_id)) := by
  induction gs with
  | nil =>
    intro ks br mid out hks hok
    rw [foldGenres] at hok
    injection hok with hout
    subst hout
    refine ⟨by simp, by simp [dedupKeepFirst], fun row hrow => Or.inl hrow⟩
  | cons g gs ih =>
    intro ks br mid out hks hok
    by_cases hgne : g = ""
    · subst hgne
      have hlknone : lookupGenre (stampFrom 0 ks) "" = none :=
        (lookupGenre_stampFrom_none ks "" 0).mpr hks
      have hstep : stepGenre mid (stampFrom 0 ks, br) "" = .error "KeyError: ''" := by
        simp only [stepGenre]
        simp [hlknone]
      rw [foldGenres, hstep] at hok
      cases hok
    · by_cases hgk : g ∈ ks
      · have hlksome : lookupGenre (stampFrom 0 ks) g ≠ none := by
          rw [Ne, lookupGenre_stampFrom_none]
          exact fun hc => hc hgk
        rcases Option.ne_none_iff_exists'.mp hlksome with ⟨gid, hgid⟩
        have hstep : stepGenre mid (stampFrom 0 ks, br) g =
            .ok (stampFrom 0 ks, br ++ [⟨mid, gid⟩]) := by
          simp only [stepGenre]
          simp [hgid]
        rw [foldGenres, hstep] at hok
        rcases ih ks (br ++ [⟨mid, gid⟩]) mid out hks hok with ⟨hgs, hdim, hbr⟩
        have hded : dedupKeepFirst ks (g :: gs) = dedupKeepFirst ks gs := by
          rw [dedupKeepFirst, if_pos hgk]
        refine ⟨?_, by rw [hded]; exact hdim, ?_⟩
        · intro x hx
          rcases List.mem_cons.mp hx with rfl | hx
          · exact hgne
          · exact hgs x hx
        · intro row hrow
          rcases hbr row hrow with hin | hnew
          · rcases List.mem_append.mp hin with hin | hin
            · exact Or.inl hin
            · have heq : row = (⟨mid, gid⟩ : BridgeRow) := List.mem_singleton.mp hin
              subst heq
              refine Or.inr ⟨rfl, (g, gid), ?_, rfl⟩
              rw [hdim]
              exact stampFrom_prefix_mem _ (lookupGenre_mem hgid)
          · exact Or.inr hnew
      · have hlknone : lookupGenre (stampFrom 0 ks) g = none :=
          (lookupGenre_stampFrom_none ks g 0).mpr hgk
        have hdimeq :
            stampFrom 0 ks ++ [(g, (stampFrom 0 ks).length + 1)] = stampFrom 0 (ks ++ [g]) := by
          rw [stampFrom_length, stampFrom_append, Nat.zero_add, stampFrom_singleton]
        have hlk2 : lookupGenre (stampFrom 0 (ks ++ [g])) g = some (ks.length + 1) := by
          have := lookupGenre_stampFrom_snoc ks g hgk 0
          rwa [Nat.zero_add] at this
        have hstep : stepGenre mid (stampFrom 0 ks, br) g =
            .ok (stampFrom 0 (ks ++ [g]), br ++ [⟨mid, ks.length + 1⟩]) := by
          simp only [stepGenre]
          rw [if_pos ⟨hgne, hlknone⟩, hdimeq, hlk2]
        rw [foldGenres, hstep] at hok
        have hks2 : "" ∉ ks ++ [g] := by
          intro hc
          rcases List.mem_append.mp hc with hc | hc
          · exact hks hc
          · exact hgne (List.mem_singleton.mp hc).symm
        rcases ih (ks ++ [g]) (br ++ [⟨mid, ks.length + 1⟩]) mid out hks2 hok with
          ⟨hgs, hdim, hbr⟩
        have hded : ks ++ dedupKeepFirst ks (g :: gs) =
            (ks ++ [g]) ++ dedupKeepFirst (ks ++ [g]) gs := by
          rw [dedupKeepFirst, if_neg hgk, List.append_assoc]
          congr 2
          refine dedupKeepFirst_congr gs _ _ (fun z => ?_)
          simp only [List.mem_cons, List.mem_append, List.mem_singleton]
          tauto
        refine ⟨?_, by rw [hded]; exact hdim, ?_⟩
        · intro x hx
          rcases List.mem_cons.mp hx with rfl | hx
          · exact hgne
          · exact hgs x hx
        · intro row hrow
          rcases hbr row hrow with hin | hnew
          · rcases List.mem_append.mp hin with hin | hin
            · exact Or.inl hin
            · have heq : row = (⟨mid, ks.length + 1⟩ : BridgeRow) := List.mem_singleton.mp hin
              subst heq
              refine Or.inr ⟨rfl, (g, ks.length + 1), ?_, rfl⟩
              rw [hdim]
              refine stampFrom_prefix_mem _ ?_
              rw [stampFrom_append, Nat.zero_add, stampFrom_singleton]
              exact List.mem_append_right _ (List.mem_singleton.mpr rfl)
          · exact Or.inr hnew

theorem buildMovieRow_movie_id {data : MovieData} {r : MovieRow}
    (h : buildMovieRow data = .ok r) : r.movie_id = data.movie_id := by
  unfold buildMovieRow at h
  split at h
  · cases h
  · split at h
    · cases h
    · split at h
      · cases h
      · injection h with he
        rw [← he]

theorem cleanMovieRow_movie_id (r : MovieRow) : (cleanMovieRow r).movie_id = r.movie_id := rfl

theorem cleanCell_no_sentinel (v : Option String) :
    cleanCell v ≠ some "N/A" ∧ cleanCell v ≠ some "" := by
  unfold cleanCell
  split
  · simp
  · rename_i hv
    push_neg at hv
    exact hv

theorem runMovies_ok (ms : List MovieData) :
    ∀ (ks : List String) (mv : List MovieRow) (br : List BridgeRow) (stout : NormState),
      "" ∉ ks →
      runMovies ⟨stampFrom 0 ks, mv, br⟩ ms = .ok stout →
      (∀ g ∈ ms.flatMap genresOf, g ≠ "") ∧
      stout.dim_genres = stampFrom 0 (ks ++ dedupKeepFirst ks (ms.flatMap genresOf)) ∧
      stout.dim_movies.map (·.movie_id) = mv.map (·.movie_id) ++ ms.map (·.movie_id) ∧
      (∀ row ∈ stout.bridge, row ∈ br ∨
        (row.movie_id ∈ ms.map (·.movie_id) ∧ ∃ p ∈ stout.dim_genres, p.2 = row.genre_id)) ∧
      (∀ row ∈ stout.dim_movies, row ∈ mv ∨ ∃ m ∈ ms, buildMovieRow m = .ok row) := by
  induction ms with
  | nil =>
    intro ks mv br stout hks hok
    rw [runMovies] at hok
    injection hok with hout
    subst hout
    refine ⟨by simp, by simp [dedupKeepFirst], by simp, fun row hrow => Or.inl hrow,
      fun row hrow => Or.inl hrow⟩
  | cons m ms ih =>
    intro ks mv br stout hks hok
    rw [runMovies] at hok
    cases hpom : processOneMovie ⟨stampFrom 0 ks, mv, br⟩ m with
    | error e =>
      rw [hpom] at hok
      cases hok
    | ok st2 =>
      rw [hpom] at hok
      unfold processOneMovie at hpom
      cases hfold : foldGenres m.movie_id (stampFrom 0 ks, br) (genresOf m) with
      | error e =>
        rw [hfold] at hpom
        cases hpom
      | ok gb =>
        rw [hfold] at hpom
        cases hbuild : buildMovieRow m with
        | error e =>
          rw [hbuild] at hpom
          cases hpom
        | ok row =>
          rw [hbuild] at hpom
          injection hpom with hst2
          rcases foldGenres_ok (genresOf m) ks br m.movie_id gb hks hfold with
            ⟨hg1, hgb1, hgbbr⟩
          have hks1 : "" ∉ ks ++ dedupKeepFirst ks (genresOf m) := by
            intro hc
            rcases List.mem_append.mp hc with hc | hc
            · exact hks hc
            · exact hg1 "" ((mem_dedupKeepFirst ks (genresOf m) "").mp hc).1 rfl
          have hok2 : runMovies
              ⟨stampFrom 0 (ks ++ dedupKeepFirst ks (genresOf m)), mv ++ [row], gb.2⟩ ms =
              .ok stout := by
            rw [← hgb1, hst2]
            exact hok
          rcases ih (ks ++ dedupKeepFirst ks (genresOf m)) (mv ++ [row]) gb.2 stout hks1 hok2
            with ⟨hg2, hdim, hmov, hbr, hrows⟩
          refine ⟨?_, ?_, ?_, ?_, ?_⟩
          · intro g hg
            rw [List.flatMap_cons, List.mem_append] at hg
            rcases hg with hg | hg
            · exact hg1 g hg
            · exact hg2 g hg
          · rw [hdim, List.flatMap_cons,
              dedupKeepFirst_append (genresOf m) (ms.flatMap genresOf) ks,
              ← List.append_assoc]
          · rw [hmov, List.map_append, List.map_cons, List.map_nil, List.append_assoc,
              List.map_cons]
            have : row.movie_id = m.movie_id := buildMovieRow_movie_id hbuild
            rw [this]
            rfl
          · intro brow hbrow
            rcases hbr brow hbrow with hin | ⟨hmid, p, hp, hpid⟩
            · rcases hgbbr brow hin with hin2 | ⟨hmid, p, hp, hpid⟩
              · exact Or.inl hin2
              · refine Or.inr ⟨by rw [List.map_cons, List.mem_cons]; exact Or.inl hmid,
                  p, ?_, hpid⟩
                rw [hdim]
                rw [hgb1] at hp
                exact stampFrom_prefix_mem _ hp
            · exact Or.inr ⟨by rw [List.map_cons, List.mem_cons]; exact Or.inr hmid,
                p, hp, hpid⟩
          · intro mrow hmrow
            rcases hrows mrow hmrow with hin | ⟨m2, hm2, hb2⟩
            · rcases List.mem_append.mp hin with hin | hin
              · exact Or.inl hin
              · have heq : mrow = row := List.mem_singleton.mp hin
                subst heq
                exact Or.inr ⟨m, List.mem_cons_self m ms, hbuild⟩
            · exact Or.inr ⟨m2, List.mem_cons_of_mem m hm2, hb2⟩

theorem process_movies_decomp {ms : List MovieData} {mv : List MovieRow}
    {gd : List GenreRow} {br : List BridgeRow}
    (h : process_movies_data ms = .ok (mv, gd, br)) :
    ∃ st : NormState, runMovies ⟨[], [], []⟩ ms = .ok st ∧
      mv = st.dim_movies.map cleanMovieRow ∧
      gd = st.dim_genres.map (fun p => ⟨p.2, p.1⟩) ∧
      br = st.bridge := by
  unfold process_movies_data at h
  cases hrun : runMovies ⟨[], [], []⟩ ms with
  | error e =>
    rw [hrun] at h
    cases h
  | ok st =>
    rw [hrun] at h
    injection h with h1
    rw [Prod.mk.injEq, Prod.mk.injEq] at h1
    exact ⟨st, rfl, h1.1.symm, h1.2.1.symm, h1.2.2.symm⟩

/-- C2: for every input on which `process_movies_data` succeeds, the genre
dimension assigns `genre_id` as the dense sequence `1, 2, 3, ...` in the
order each distinct non-empty genre name first appears across the whole
input list (the concatenation of all records' split genre fields,
independent of which movie contributed it); empty genre names receive no
id — the dimension holds exactly the non-empty genre names. -/
theorem genre_dimension_dense_first_seen (ms : List MovieData) (mv : List MovieRow)
    (gd : List GenreRow) (br : List BridgeRow)
    (h : process_movies_data ms = .ok (mv, gd, br)) :
    gd.map (·.genre_id) = List.range' 1 gd.length ∧
    (gd.map (·.genre_name)).Nodup ∧
    (∀ g, g ∈ gd.map (·.genre_name) ↔ g ≠ "" ∧ g ∈ ms.flatMap genresOf) ∧
    (gd.map (·.genre_name)).Pairwise
      (fun a b => (ms.flatMap genresOf).indexOf a < (ms.flatMap genresOf).indexOf b) := by
  rcases process_movies_decomp h with ⟨st, hrun, hmv, hgd, hbr⟩
  have hrun2 : runMovies ⟨stampFrom 0 [], [], []⟩ ms = .ok st := hrun
  rcases runMovies_ok ms [] [] [] st (by simp) hrun2 with ⟨hg, hdim, hmov, hbrg, hrows⟩
  rw [List.nil_append] at hdim
  have hnames : gd.map (·.genre_name) = dedupKeepFirst [] (ms.flatMap genresOf) := by
    rw [hgd, List.map_map]
    have hcomp : ((fun g : GenreRow => g.genre_name) ∘
        fun p : String × Nat => (⟨p.2, p.1⟩ : GenreRow)) = Prod.fst := rfl
    rw [hcomp, hdim, stampFrom_map_fst]
  have hids : gd.map (·.genre_id) = List.range' 1 gd.length := by
    rw [hgd, List.map_map, List.length_map]
    have hcomp : ((fun g : GenreRow => g.genre_id) ∘
        fun p : String × Nat => (⟨p.2, p.1⟩ : GenreRow)) = Prod.snd := rfl
    rw [hcomp, hdim, stampFrom_map_snd, stampFrom_length]
  refine ⟨hids, ?_, ?_, ?_⟩
  · rw [hnames]
    exact nodup_dedupKeepFirst _ _
  · intro g
    rw [hnames, mem_dedupKeepFirst]
    simp only [List.not_mem_nil, not_false_iff, and_true]
    constructor
    · intro hm
      exact ⟨hg g hm, hm⟩
    · rintro ⟨-, hm⟩
      exact hm
  · rw [hnames]
    exact pairwise_indexOf_dedupKeepFirst _ _

/-- Witness for C2 at a concrete two-genre record. -/
theorem genre_dimension_dense_first_seen_witness :
    (([⟨1, "Drama"⟩, ⟨2, "War"⟩] : List GenreRow).map (·.genre_id) =
      List.range' 1 ([⟨1, "Drama"⟩, ⟨2, "War"⟩] : List GenreRow).length) ∧
    ((([⟨1, "Drama"⟩, ⟨2, "War"⟩] : List GenreRow).map (·.genre_name)).Nodup) ∧
    (∀ g, g ∈ ([⟨1, "Drama"⟩, ⟨2, "War"⟩] : List GenreRow).map (·.genre_name) ↔
      g ≠ "" ∧ g ∈ ([{ movie_id := 7, Genre := some "Drama, War", Runtime := some "N/A", imdbVotes := some "5" }] : List MovieData).flatMap genresOf) ∧
    (([⟨1, "Drama"⟩, ⟨2, "War"⟩] : List GenreRow).map (·.genre_name)).Pairwise
      (fun a b =>
        (([{ movie_id := 7, Genre := some "Drama, War", Runtime := some "N/A", imdbVotes := some "5" }] : List MovieData).flatMap genresOf).indexOf a <
        (([{ movie_id := 7, Genre := some "Drama, War", Runtime := some "N/A", imdbVotes := some "5" }] : List MovieData).flatMap genresOf).indexOf b) :=
  genre_dimension_dense_first_seen
    [{ movie_id := 7, Genre := some "Drama, War", Runtime := some "N/A", imdbVotes := some "5" }]
    [⟨7, none, none, none, none, none, none, none, none, none, none, none, some "[]",
      none, none, some "5", none, none, none, none⟩]
    [⟨1, "Drama"⟩, ⟨2, "War"⟩]
    [⟨7, 1⟩, ⟨7, 2⟩]
    rfl

/-- C4: on every input on which `process_movies_data` succeeds, each bridge
row's `genre_id` occurs in the genre dimension produced in the same run,
and each bridge row's `movie_id` occurs in the movie dimension produced in
the same run. -/
theorem bridge_referential_integrity (ms : List MovieData) (mv : List MovieRow)
    (gd : List GenreRow) (br : List BridgeRow)
    (h : process_movies_data ms = .ok (mv, gd, br)) :
    ∀ row ∈ br, (∃ g ∈ gd, g.genre_id = row.genre_id) ∧
      (∃ mr ∈ mv, mr.movie_id = row.movie_id) := by
  rcases process_movies_decomp h with ⟨st, hrun, hmv, hgd, hbr⟩
  have hrun2 : runMovies ⟨stampFrom 0 [], [], []⟩ ms = .ok st := hrun
  rcases runMovies_ok ms [] [] [] st (by simp) hrun2 with ⟨hg, hdim, hmov, hbrg, hrows⟩
  intro row hrow
  rw [hbr] at hrow
  rcases hbrg row hrow with hin | ⟨hmid, p, hp, hpid⟩
  · exact absurd hin (List.not_mem_nil row)
  constructor
  · refine ⟨⟨p.2, p.1⟩, ?_, hpid⟩
    rw [hgd]
    exact List.mem_map_of_mem _ hp
  · have hmv_ids : mv.map (·.movie_id) = ms.map (·.movie_id) := by
      rw [hmv, List.map_map]
      have hcomp : ((fun r : MovieRow => r.movie_id) ∘ cleanMovieRow) =
          (fun r : MovieRow => r.movie_id) := rfl
      rw [hcomp]
      simpa using hmov
    have hmem : row.movie_id ∈ mv.map (·.movie_id) := by
      rw [hmv_ids]
      exact hmid
    rcases List.mem_map.mp hmem with ⟨mr, hmr, hmrid⟩
    exact ⟨mr, hmr, hmrid⟩

/-- Witness for C4 at a concrete input whose bridge has two rows. -/
theorem bridge_referential_integrity_witness :
    ((∃ g ∈ ([⟨1, "Drama"⟩, ⟨2, "War"⟩] : List GenreRow),
        g.genre_id = (⟨7, 1⟩ : BridgeRow).genre_id) ∧
      (∃ mr ∈ ([⟨7, none, none, none, none, none, none, none, none, none, none, none,
          some "[]", none, none, some "5", none, none, none, none⟩] : List MovieRow),
        mr.movie_id = (⟨7, 1⟩ : BridgeRow).movie_id)) ∧
    ((∃ g ∈ ([⟨1, "Drama"⟩, ⟨2, "War"⟩] : List GenreRow),
        g.genre_id = (⟨7, 2⟩ : BridgeRow).genre_id) ∧
      (∃ mr ∈ ([⟨7, none, none, none, none, none, none, none, none, none, none, none,
          some "[]", none, none, some "5", none, none, none, none⟩] : List MovieRow),
        mr.movie_id = (⟨7, 2⟩ : BridgeRow).movie_id)) :=
  ⟨bridge_referential_integrity
    [{ movie_id := 7, Genre := some "Drama, War", Runtime := some "N/A", imdbVotes := some "5" }]
    [⟨7, none, none, none, none, none, none, none, none, none, none, none, some "[]",
      none, none, some "5", none, none, none, none⟩]
    [⟨1, "Drama"⟩, ⟨2, "War"⟩]
    [⟨7, 1⟩, ⟨7, 2⟩]
    rfl ⟨7, 1⟩ (by decide),
   bridge_referential_integrity
    [{ movie_id := 7, Genre := some "Drama, War", Runtime := some "N/A", imdbVotes := some "5" }]
    [⟨7, none, none, none, none, none, none, none, none, none, none, none, some "[]",
      none, none, some "5", none, none, none, none⟩]
    [⟨1, "Drama"⟩, ⟨2, "War"⟩]
    [⟨7, 1⟩, ⟨7, 2⟩]
    rfl ⟨7, 2⟩ (by decide)⟩

/-- C6 (code bug): `process_movies_data` does not tolerate missing external
fields — a record with no `Genre` key reaches `dim_genres[""]` and raises
`KeyError`, and a record with a `Genre` but no `Runtime` key calls
`.replace` on `None` and raises `AttributeError` (`imdbVotes` missing
behaves the same way), so the operation rejects these inputs instead of
coercing them. -/
theorem movie_normalizer_raises_on_missing_fields :
    process_movies_data [{ movie_id := 1 }] = .error "KeyError: ''" ∧
    process_movies_data [{ movie_id := 2, Genre := some "Drama" }] =
      .error "AttributeError: NoneType has no attribute replace" :=
  ⟨rfl, rfl⟩

/-- C7: field null-coercion in `process_movies_data` — an external `Runtime`
of `"148 min"` normalizes to the numeral `148` (as the decimal string bound
for the integer-typed `runtime_minutes` column), a `Runtime` of `"N/A"`
normalizes to null, an `imdbVotes` of `"1,234,567"` normalizes to
`1234567`, and after assembly no string-typed movie-dimension field of any
successful run is literally `"N/A"` or the empty string — the blanket
post-pass coerces both to null. -/
theorem movie_field_null_coercion (ms : List MovieData) (mv : List MovieRow)
    (gd : List GenreRow) (br : List BridgeRow)
    (h : process_movies_data ms = .ok (mv, gd, br)) :
    ((process_movies_data [{ movie_id := 1, Genre := some "Drama", Runtime := some "148 min", imdbVotes := some "1,234,567" }]).map
        (fun out => out.1.map (fun r => (r.runtime_minutes, r.imdb_votes))) =
      .ok [(some "148", some "1234567")]) ∧
    ((process_movies_data [{ movie_id := 2, Genre := some "Drama", Runtime := some "N/A", imdbVotes := some "7" }]).map
        (fun out => out.1.map (fun r => r.runtime_minutes)) = .ok [none]) ∧
    (∀ row ∈ mv,
      noSentinel row.title ∧ noSentinel row.year ∧ noSentinel row.runtime_minutes ∧
      noSentinel row.director ∧ noSentinel row.writer ∧ noSentinel row.actors ∧
      noSentinel row.plot ∧ noSentinel row.language ∧ noSentinel row.country ∧
      noSentinel row.awards ∧ noSentinel row.ratings ∧ noSentinel row.metascore ∧
      noSentinel row.imdb_rating ∧ noSentinel row.imdb_votes ∧
      noSentinel row.box_office_total ∧ noSentinel row.production ∧
      noSentinel row.website ∧ noSentinel row.poster) := by
  refine ⟨rfl, rfl, ?_⟩
  rcases process_movies_decomp h with ⟨st, hrun, hmv, hgd, hbr⟩
  intro row hrow
  rw [hmv] at hrow
  rcases List.mem_map.mp hrow with ⟨raw, hraw, hclean⟩
  subst hclean
  exact ⟨cleanCell_no_sentinel raw.title, cleanCell_no_sentinel raw.year,
    cleanCell_no_sentinel raw.runtime_minutes, cleanCell_no_sentinel raw.director,
    cleanCell_no_sentinel raw.writer, cleanCell_no_sentinel raw.actors,
    cleanCell_no_sentinel raw.plot, cleanCell_no_sentinel raw.language,
    cleanCell_no_sentinel raw.country, cleanCell_no_sentinel raw.awards,
    cleanCell_no_sentinel raw.ratings, cleanCell_no_sentinel raw.metascore,
    cleanCell_no_sentinel raw.imdb_rating, cleanCell_no_sentinel raw.imdb_votes,
    cleanCell_no_sentinel raw.box_office_total, cleanCell_no_sentinel raw.production,
    cleanCell_no_sentinel raw.website, cleanCell_no_sentinel raw.poster⟩

/-- Witness for C7: the concrete coercions plus the blanket pass on a
one-row run (with a `"N/A"` director and an empty plot, both coerced). -/
theorem movie_field_null_coercion_witness :
    ((process_movies_data [{ movie_id := 1, Genre := some "Drama", Runtime := some "148 min", imdbVotes := some "1,234,567" }]).map
        (fun out => out.1.map (fun r => (r.runtime_minutes, r.imdb_votes))) =
      .ok [(some "148", some "1234567")]) ∧
    ((process_movies_data [{ movie_id := 2, Genre := some "Drama", Runtime := some "N/A", imdbVotes := some "7" }]).map
        (fun out => out.1.map (fun r => r.runtime_minutes)) = .ok [none]) ∧
    (∀ row ∈ ([⟨3, none, none, none, some "20", none, none, none, none, none, none, none,
        some "[]", none, none, some "9", none, none, none, none⟩] : List MovieRow),
      noSentinel row.title ∧ noSentinel row.year ∧ noSentinel row.runtime_minutes ∧
      noSentinel row.director ∧ noSentinel row.writer ∧ noSentinel row.actors ∧
      noSentinel row.plot ∧ noSentinel row.language ∧ noSentinel row.country ∧
      noSentinel row.awards ∧ noSentinel row.ratings ∧ noSentinel row.metascore ∧
      noSentinel row.imdb_rating ∧ noSentinel row.imdb_votes ∧
      noSentinel row.box_office_total ∧ noSentinel row.production ∧
      noSentinel row.website ∧ noSentinel row.poster) :=
  movie_field_null_coercion
    [{ movie_id := 3, Genre := some "Drama", Runtime := some "20 min", imdbVotes := some "9", Director := some "N/A", Plot := some "" }]
    [⟨3, none, none, none, some "20", none, none, none, none, none, none, none,
      some "[]", none, none, some "9", none, none, none, none⟩]
    [⟨1, "Drama"⟩]
    [⟨3, 1⟩]
    rfl

/-! The revenue transformer and the join with the distributor dimension. -/

theorem mem_mergeDistributors_intro {df : List RevenueRecord} {dist : List DistributorRow}
    {r : RevenueRecord} {d : DistributorRow}
    (hr : r ∈ df) (hd : d ∈ dist) (hname : d.distributor_name = r.distributor) :
    (r, d) ∈ mergeDistributors df dist := by
  unfold mergeDistributors
  rw [List.mem_flatMap]
  refine ⟨r, hr, List.mem_map_of_mem _ (List.mem_filter.mpr ⟨hd, ?_⟩)⟩
  simp [hname]

theorem mem_mergeDistributors_fst {df : List RevenueRecord} {dist : List DistributorRow}
    {q : RevenueRecord × DistributorRow}
    (hq : q ∈ mergeDistributors df dist) : q.1 ∈ df := by
  unfold mergeDistributors at hq
  rw [List.mem_flatMap] at hq
  rcases hq with ⟨r, hr, hq⟩
  rcases List.mem_map.mp hq with ⟨d, hd, heq⟩
  rw [← heq]
  exact hr

theorem buildFactRows_error (pyHash : String → Int)
    (ps : List (RevenueRecord × DistributorRow)) :
    (∃ p ∈ ps, ∃ e, parseFlexDate p.1.date = .error e) →
    ∃ e2, buildFactRows pyHash ps = .error e2 := by
  induction ps with
  | nil =>
    rintro ⟨p, hp, -⟩
    exact absurd hp (List.not_mem_nil p)
  | cons q qs ih =>
    rintro ⟨p, hp, e, he⟩
    rcases List.mem_cons.mp hp with rfl | hp2
    · exact ⟨e, by rw [buildFactRows, he]⟩
    · cases hpa : parseFlexDate q.1.date with
      | error e2 => exact ⟨e2, by rw [buildFactRows, hpa]⟩
      | ok v =>
        rcases ih ⟨p, hp2, e, he⟩ with ⟨e3, he3⟩
        exact ⟨e3, by rw [buildFactRows, hpa, he3]⟩

theorem buildFactRows_ok (pyHash : String → Int)
    (ps : List (RevenueRecord × DistributorRow)) :
    (∀ p ∈ ps, ∃ v, parseFlexDate p.1.date = .ok v) →
    ∃ rows, buildFactRows pyHash ps = .ok rows ∧ rows.length = ps.length ∧
      ∀ row ∈ rows, ∃ p ∈ ps, ∃ v, parseFlexDate p.1.date = .ok v ∧ row.date = v.1 := by
  induction ps with
  | nil =>
    intro _
    exact ⟨[], rfl, rfl, by simp⟩
  | cons q qs ih =>
    intro h
    rcases h q (List.mem_cons_self q qs) with ⟨v, hv⟩
    rcases ih (fun p hp => h p (List.mem_cons_of_mem q hp)) with ⟨rows, hrows, hlen, hdates⟩
    refine ⟨{ id := q.1.id, movie_id := movieIdOf pyHash q.1.title, revenue := q.1.revenue, theaters := q.1.theaters, distributor_id := q.2.distributor_id, date := v.1 } :: rows,
      ?_, ?_, ?_⟩
    · rw [buildFactRows, hv, hrows]
    · simp [hlen]
    · intro row hrow
      rcases List.mem_cons.mp hrow with rfl | hrow2
      · exact ⟨q, List.mem_cons_self q qs, v, hv, rfl⟩
      · rcases hdates row hrow2 with ⟨p, hp, v2, hv2, hd⟩
        exact ⟨p, List.mem_cons_of_mem q hp, v2, hv2, hd⟩

theorem filter_name_length_one {dist : List DistributorRow} {s : String}
    (hnodup : (dist.map (·.distributor_name)).Nodup)
    (hmem : s ∈ dist.map (·.distributor_name)) :
    (dist.filter (fun d => d.distributor_name == s)).length = 1 := by
  induction dist with
  | nil => simp at hmem
  | cons d ds ih =>
    rw [List.map_cons, List.nodup_cons] at hnodup
    rcases List.mem_cons.mp hmem with hs | hs
    · have hbeq : (d.distributor_name == s) = true := beq_iff_eq.mpr hs.symm
      rw [List.filter_cons, if_pos hbeq]
      have hnil : ds.filter (fun x => x.distributor_name == s) = [] := by
        rw [List.filter_eq_nil_iff]
        intro a ha hc
        rw [beq_iff_eq] at hc
        refine hnodup.1 (List.mem_map.mpr ⟨a, ha, ?_⟩)
        rw [hc]
        exact hs
      simp [hnil]
    · have hne : (d.distributor_name == s) = false := by
        rw [beq_eq_false_iff_ne]
        intro hc
        rw [hc] at hnodup
        exact hnodup.1 hs
      rw [List.filter_cons, if_neg (by simp [hne])]
      exact ih hnodup.2 hs

theorem mergeDistributors_length (dist : List DistributorRow) (df : List RevenueRecord)
    (h1 : ∀ r ∈ df, (dist.filter (fun d => d.distributor_name == r.distributor)).length = 1) :
    (mergeDistributors df dist).length = df.length := by
  induction df with
  | nil => rfl
  | cons r rs ih =>
    unfold mergeDistributors at ih ⊢
    rw [List.flatMap_cons, List.length_append, List.length_map,
      h1 r (List.mem_cons_self r rs), ih (fun x hx => h1 x (List.mem_cons_of_mem r hx)),
      List.length_cons, Nat.add_comm]

/-- C8: `process_revenue_data` (run, as in `ETLPipeline.run`, against the
distributor dimension built from the same records) raises as soon as any
record's date string is unparsable — it never drops the row or returns a
fact table — and when every date is well-formed it succeeds with every fact
row's date being the pure calendar-date component of a parsed input date,
the time-of-day discarded. -/
theorem revenue_fails_on_unparsable_date (pyHash : String → Int) (df : List RevenueRecord) :
    ((∃ r ∈ df, ∃ e, parseFlexDate r.date = .error e) →
      ∃ e2, process_revenue_data pyHash df (process_distributors_data df) = .error e2) ∧
    ((∀ r ∈ df, ∃ v, parseFlexDate r.date = .ok v) →
      ∃ out, process_revenue_data pyHash df (process_distributors_data df) = .ok out ∧
        ∀ row ∈ out.1, ∃ r ∈ df, ∃ v, parseFlexDate r.date = .ok v ∧ row.date = v.1) := by
  constructor
  · rintro ⟨r, hr, e, he⟩
    have hname : r.distributor ∈ (process_distributors_data df).map (·.distributor_name) := by
      rw [process_distributors_names, mem_dedupKeepFirst]
      exact ⟨List.mem_map_of_mem _ hr, by simp⟩
    rcases List.mem_map.mp hname with ⟨d, hd, hdn⟩
    have hmerge : (r, d) ∈ mergeDistributors df (process_distributors_data df) :=
      mem_mergeDistributors_intro hr hd hdn
    rcases buildFactRows_error pyHash _ ⟨(r, d), hmerge, e, he⟩ with ⟨e2, he2⟩
    refine ⟨e2, ?_⟩
    unfold process_revenue_data
    rw [he2]
  · intro h
    have hall : ∀ p ∈ mergeDistributors df (process_distributors_data df),
        ∃ v, parseFlexDate p.1.date = .ok v :=
      fun p hp => h p.1 (mem_mergeDistributors_fst hp)
    rcases buildFactRows_ok pyHash _ hall with ⟨rows, hrows, hlen, hdates⟩
    refine ⟨(rows, (mergeDistributors df (process_distributors_data df)).map
      (fun p => (p.1.title, movieIdOf pyHash p.1.title))), ?_, ?_⟩
    · unfold process_revenue_data
      rw [hrows]
    · intro row hrow
      rcases hdates row hrow with ⟨p, hp, v, hv, hd⟩
      exact ⟨p.1, mem_mergeDistributors_fst hp, v, hv, hd⟩

/-- Witness for C8: a malformed date fails the run; a well-formed single
record run succeeds with a pure calendar date. -/
theorem revenue_fails_on_unparsable_date_witness :
    (∃ e2, process_revenue_data (fun _ => 0) [⟨"1", "A", "garbage", 5, 3, "X"⟩]
      (process_distributors_data [⟨"1", "A", "garbage", 5, 3, "X"⟩]) = .error e2) ∧
    (∃ out, process_revenue_data (fun _ => 0) [⟨"1", "A", "2020-12-25", 5, 3, "X"⟩]
      (process_distributors_data [⟨"1", "A", "2020-12-25", 5, 3, "X"⟩]) = .ok out ∧
      ∀ row ∈ out.1, ∃ r ∈ [(⟨"1", "A", "2020-12-25", 5, 3, "X"⟩ : RevenueRecord)],
        ∃ v, parseFlexDate r.date = .ok v ∧ row.date = v.1) := by
  constructor
  · exact (revenue_fails_on_unparsable_date (fun _ => 0) [⟨"1", "A", "garbage", 5, 3, "X"⟩]).1
      ⟨⟨"1", "A", "garbage", 5, 3, "X"⟩, List.mem_singleton.mpr rfl,
        "unparsable date: garbage", rfl⟩
  · refine (revenue_fails_on_unparsable_date (fun _ => 0)
      [⟨"1", "A", "2020-12-25", 5, 3, "X"⟩]).2 (fun r hr => ?_)
    rcases List.mem_singleton.mp hr with rfl
    exact ⟨(⟨2020, 12, 25⟩, 0), rfl⟩

/-- C10: within a pipeline run the inner join never drops a revenue record —
the distributor dimension is built from the same record list, so each
record's distributor matches exactly one dimension row and, provided the
dates parse (otherwise the whole run raises, see C8), the fact table has
exactly one row per input revenue record. -/
theorem fact_table_one_row_per_record (pyHash : String → Int) (df : List RevenueRecord)
    (h : ∀ r ∈ df, ∃ v, parseFlexDate r.date = .ok v) :
    ∃ out, process_revenue_data pyHash df (process_distributors_data df) = .ok out ∧
      out.1.length = df.length := by
  have hnodup : ((process_distributors_data df).map (·.distributor_name)).Nodup := by
    rw [process_distributors_names]
    exact nodup_dedupKeepFirst _ _
  have hone : ∀ r ∈ df, ((process_distributors_data df).filter
      (fun d => d.distributor_name == r.distributor)).length = 1 := by
    intro r hr
    refine filter_name_length_one hnodup ?_
    rw [process_distributors_names, mem_dedupKeepFirst]
    exact ⟨List.mem_map_of_mem _ hr, by simp⟩
  have hmlen : (mergeDistributors df (process_distributors_data df)).length = df.length :=
    mergeDistributors_length _ df hone
  have hall : ∀ p ∈ mergeDistributors df (process_distributors_data df),
      ∃ v, parseFlexDate p.1.date = .ok v :=
    fun p hp => h p.1 (mem_mergeDistributors_fst hp)
  rcases buildFactRows_ok pyHash _ hall with ⟨rows, hrows, hlen, -⟩
  refine ⟨(rows, (mergeDistributors df (process_distributors_data df)).map
    (fun p => (p.1.title, movieIdOf pyHash p.1.title))), ?_, ?_⟩
  · unfold process_revenue_data
    rw [hrows]
  · rw [hlen, hmlen]

/-- Witness for C10: two records sharing one distributor still produce two
fact rows. -/
theorem fact_table_one_row_per_record_witness :
    ∃ out, process_revenue_data (fun _ => 0)
      [⟨"1", "A", "2020-01-01", 5, 3, "X"⟩, ⟨"2", "B", "2020-01-02", 6, 4, "X"⟩]
      (process_distributors_data
        [⟨"1", "A", "2020-01-01", 5, 3, "X"⟩, ⟨"2", "B", "2020-01-02", 6, 4, "X"⟩]) = .ok out ∧
      out.1.length =
        ([⟨"1", "A", "2020-01-01", 5, 3, "X"⟩, ⟨"2", "B", "2020-01-02", 6, 4, "X"⟩] :
          List RevenueRecord).length := by
  refine fact_table_one_row_per_record (fun _ => 0) _ (fun r hr => ?_)
  rcases List.mem_cons.mp hr with rfl | hr2
  · exact ⟨(⟨2020, 1, 1⟩, 0), rfl⟩
  · rcases List.mem_singleton.mp hr2 with rfl
    exact ⟨(⟨2020, 1, 2⟩, 0), rfl⟩
